import Mathlib

/-!
Verification development for the Endgame chess-analysis application
(`src/components/ChessAnalysis.tsx`).  The source file contains several
snapshots of the component; the definitions below are shallow embeddings of
the functions the claims cite, translated statement by statement from the
TypeScript.  External collaborators (the chess-rules engine `chess.js`, the
PGN parser, the tactical-explanation text generator) are passed in as
function parameters, mirroring their role as collaborators in the code.
JavaScript numbers that hold pawn scores are modelled as rationals;
list/array indices that may go negative are modelled as integers.
-/

namespace Endgame

/-- The classification labels, from
`type MoveClassification = 'book' | 'best' | 'great' | 'brilliant' |
'inaccuracy' | 'mistake' | 'miss' | 'blunder'`. -/
inductive MoveClassification where
  | book
  | best
  | great
  | brilliant
  | inaccuracy
  | mistake
  | miss
  | blunder
deriving DecidableEq, Repr

/-- The threshold table `moveClassifications` (score-difference thresholds in
pawns).  The source object also carries `blunder: Infinity` and
`brilliant: -0.5`, which are never read by the classification branch and have
no finite rational value, so only the fields the code compares against are
embedded. -/
structure MoveClassificationThresholds where
  best : ℚ
  great : ℚ
  good : ℚ
  inaccuracy : ℚ
  mistake : ℚ
  miss : ℚ
deriving Repr

/-- `const moveClassifications = { best: 0.0, great: 0.2, good: 0.5,
inaccuracy: 1.0, mistake: 2.0, miss: 3.0, ... }`. -/
def moveClassifications : MoveClassificationThresholds :=
  { best := 0
    great := 1/5
    good := 1/2
    inaccuracy := 1
    mistake := 2
    miss := 3 }

/-- The classification computation inside `classifyMove`
(`handleMoveEvalMessage`): given the engine's score for its best move and the
score of the played move (both parsed from `score cp` lines on the pre-move
FEN, hence both relative to the side to move), the code computes
`scoreDiff = isWhiteMove ? moveScore - bestMoveScore : bestMoveScore - moveScore`,
classifies `scoreDiff > 0` as brilliant, `scoreDiff === 0` as best, and
otherwise buckets `Math.abs(scoreDiff)` against the threshold table. -/
def classifyMove (isWhiteMove : Bool) (bestMoveScore moveScore : ℚ) :
    MoveClassification :=
  let scoreDiff : ℚ :=
    if isWhiteMove then moveScore - bestMoveScore else bestMoveScore - moveScore
  if 0 < scoreDiff then
    MoveClassification.brilliant
  else if scoreDiff = 0 then
    MoveClassification.best
  else
    let d := |scoreDiff|
    if d ≤ moveClassifications.great then MoveClassification.great
    else if d ≤ moveClassifications.inaccuracy then MoveClassification.inaccuracy
    else if d ≤ moveClassifications.mistake then MoveClassification.mistake
    else if d ≤ moveClassifications.miss then MoveClassification.miss
    else MoveClassification.blunder

/-- A timeline entry, from `interface ChessMove { from; to; san; fen;
explanation?; classification?; bestMove?; bestMoveScore?; moveScore? }`.
The TypeScript field names `from`/`to` are Lean keywords and are embedded as
`mvFrom`/`mvTo`. -/
structure ChessMove where
  mvFrom : String
  mvTo : String
  san : String
  fen : String
  explanation : Option String := none
  classification : Option MoveClassification := none
  bestMove : Option String := none
  bestMoveScore : Option ℚ := none
  moveScore : Option ℚ := none
deriving DecidableEq, Repr

/-- A move descriptor produced by the external PGN parser: `{ move?,
comments? }`.  Entries whose `move` field is absent (e.g. variation
placeholders) carry `none` and are skipped by the replay loop
(`if (!pgnMove.move) continue`). -/
structure PgnMove where
  move : Option String
  comments : List String := []
deriving DecidableEq, Repr

/-- What the rules collaborator (`chess.js`) returns for a successful
`replayGame.move(san)` followed by `replayGame.fen()`: the move's squares and
the resulting position.  `chess.js` echoes the canonical SAN of the applied
move; for descriptors coming from a well-formed PGN that echo equals the
descriptor's SAN, so the recorded SAN is taken from the descriptor. -/
structure MoveApplied where
  mvFrom : String
  mvTo : String
  fen : String
deriving DecidableEq, Repr

/-- The component state touched by import and navigation: the React state
variables `history`, `moveHistory`, `currentPosition`, `fen`,
`currentMoveExplanation`, `gameImported`. -/
structure AppState where
  history : List String
  moveHistory : List ChessMove
  currentPosition : ℤ
  fen : String
  currentMoveExplanation : String
  gameImported : Bool
deriving DecidableEq, Repr

/-- `new Chess().fen()`: the standard chess starting position. -/
def initialFen : String :=
  "rnbqkbnr/pppppppp/8/8/8/8/PPPPPPPP/RNBQKBNR w KQkq - 0 1"

/-- The move-replay loop of `handlePgnImport` (lines 484-536): starting from
the current position, each descriptor without a `move` field is skipped;
otherwise the rules collaborator `apply` is asked to play it, a failure
(`null` return or thrown error) skips the descriptor, and a success records
the resulting FEN in `fenPositions` and a `ChessMove` (whose explanation is
the first PGN comment when present, else the generated text `explain prevFen
currentFen from to san`) in `moveHistoryWithFen`.  Returns the FENs appended
after the initial one, paired with the recorded moves. -/
def replay (apply : String → String → Option MoveApplied)
    (explain : String → String → String → String → String → String) :
    String → List PgnMove → List String × List ChessMove
  | _, [] => ([], [])
  | cur, d :: rest =>
    match d.move with
    | none => replay apply explain cur rest
    | some san =>
      match apply cur san with
      | none => replay apply explain cur rest
      | some r =>
        let expl : String :=
          match d.comments with
          | [] => explain cur r.fen r.mvFrom r.mvTo san
          | c :: _ => c
        let rec' := replay apply explain r.fen rest
        (r.fen :: rec'.1,
          { mvFrom := r.mvFrom
            mvTo := r.mvTo
            san := san
            fen := r.fen
            explanation := some expl } :: rec'.2)

/-- Number of descriptors the replay loop skips (absent `move` field, or
rules-collaborator rejection), mirroring the `continue` branches of
`handlePgnImport`. -/
def skippedCount (apply : String → String → Option MoveApplied) :
    String → List PgnMove → ℕ
  | _, [] => 0
  | cur, d :: rest =>
    match d.move with
    | none => skippedCount apply cur rest + 1
    | some san =>
      match apply cur san with
      | none => skippedCount apply cur rest + 1
      | some r => skippedCount apply r.fen rest

/-- `handlePgnImport` (lines 446-550).  The external parser is modelled as
`parse : String → Option (List PgnMove)` returning the first game's
descriptor list; `none` covers both a thrown parse error and
`parsedPgn` being empty, in which case control reaches the `catch` block,
which only shows an alert — no state setter runs, so the prior state is
returned unchanged.  On success the replay loop runs from the standard
initial position and the setters fire: `setHistory(fenPositions)`,
`setMoveHistory(moveHistoryWithFen)`, `setCurrentPosition(0)`,
`setFen(fenPositions[0])`, `setCurrentMoveExplanation("")`,
`setGameImported(true)`. -/
def handlePgnImport (apply : String → String → Option MoveApplied)
    (explain : String → String → String → String → String → String)
    (parse : String → Option (List PgnMove)) (pgn : String)
    (st : AppState) : AppState :=
  match parse pgn with
  | none => st
  | some ds =>
    let r := replay apply explain initialFen ds
    { st with
      history := initialFen :: r.1
      moveHistory := r.2
      currentPosition := 0
      fen := initialFen
      currentMoveExplanation := ""
      gameImported := true }

/-- `handleFenImport` (lines 1414-1444).  The rules collaborator's FEN loader
is modelled as `load : String → Option String` returning the normalized FEN
(`newGame.load(fenInput)` then `newGame.fen()`), `none` when `load` throws,
reaching the `catch` block that only alerts.  On success the history holds
just the imported position and the move list holds one synthetic entry. -/
def handleFenImport (load : String → Option String) (fenInput : String)
    (st : AppState) : AppState :=
  match load fenInput with
  | none => st
  | some f =>
    { st with
      fen := f
      history := [f]
      moveHistory :=
        [{ mvFrom := ""
           mvTo := ""
           san := "Imported Position"
           fen := f
           explanation := some "This is an imported position from a FEN string." }]
      currentPosition := 0
      currentMoveExplanation := "This is an imported position from a FEN string."
      gameImported := true }

/-- `navigateHistory(index)` (lines 416-436): inside the guard
`index >= 0 && index < history.length` the current index becomes `index`, the
displayed FEN becomes `history[index]` (re-serialized through
`new Chess(...)`, the identity on the stored FENs), and the explanation is
cleared at index 0 or looked up from the move that led to the position;
outside the guard nothing happens. -/
def navigateHistory (st : AppState) (index : ℤ) : AppState :=
  if 0 ≤ index ∧ index < (st.history.length : ℤ) then
    { st with
      currentPosition := index
      fen := st.history.getD index.toNat ""
      currentMoveExplanation :=
        if index = 0 then ""
        else
          match (st.moveHistory.get? (index - 1).toNat).bind ChessMove.explanation with
          | some e => e
          | none => "" }
  else st

/-- `nextMove()`: `navigateHistory(currentPosition + 1)`. -/
def nextMove (st : AppState) : AppState :=
  navigateHistory st (st.currentPosition + 1)

/-- `prevMove()`: `navigateHistory(currentPosition - 1)`. -/
def prevMove (st : AppState) : AppState :=
  navigateHistory st (st.currentPosition - 1)

/-- `goToMove(index)` (lines 552-555): `navigateHistory(index + 1)`, since
history index 0 is the initial position. -/
def goToMove (st : AppState) (index : ℤ) : AppState :=
  navigateHistory st (index + 1)

/-- `interface Evaluation { score; mate; loading; error? }` (pawn units;
`error` absent on freshly built evaluation objects). -/
structure Evaluation where
  score : ℚ
  mate : Option ℤ
  loading : Bool
  error : Option String := none
deriving DecidableEq, Repr

/-- The mutable fields the component attaches to the engine worker:
`worker.currentFen` (the FEN the engine was last told to analyze) and
`worker.hasMateScore` (whether a mate verdict is active for it). -/
structure WorkerState where
  currentFen : Option String
  hasMateScore : Bool
deriving DecidableEq, Repr

/-- An inbound engine line that passed the listener's recognizer
(`message.includes('info depth')` together with `' score cp '` or
`' score mate '`), abstracted to its parsed payload: the integer matched by
`/score cp (-?\d+)/` or `/score mate (-?\d+)/`. -/
inductive ScoreMsg where
  | cp (n : ℤ)
  | mate (n : ℤ)
deriving DecidableEq, Repr

/-- Helper for `fenFields`: splits a character list at every single space,
keeping empty segments, exactly as JavaScript `String.split(' ')` does. -/
def splitOnSpaceAux : List Char → List Char → List String
  | [], acc => [String.mk acc.reverse]
  | c :: cs, acc =>
    if c = ' ' then String.mk acc.reverse :: splitOnSpaceAux cs []
    else splitOnSpaceAux cs (c :: acc)

/-- `fenBeingEvaluated.split(' ')`: the space-separated fields of a FEN
string (structurally recursive so that concrete instances evaluate). -/
def fenFields (f : String) : List String :=
  splitOnSpaceAux f.data []

/-- The worker `message` listener for score lines (lines 192-275).  Given the
worker-attached state and the previous `evaluation`, it returns the updated
worker state and the evaluation passed to `setEvaluation`:
missing `currentFen` or a FEN with fewer than two space-separated fields is
an internal error (loading cleared, error set); a `score cp` line is dropped
to a loading-clear while `hasMateScore` is set, and otherwise delivers the
centipawn value divided by 100, negated when the FEN's side-to-move field is
`"b"`; a `score mate` line sets `hasMateScore`, negates the ply count for
black to move, and delivers score ±10 with the mate count. -/
def handleScoreMessage (w : WorkerState) (ev : Evaluation) (m : ScoreMsg) :
    WorkerState × Evaluation :=
  match w.currentFen with
  | none =>
    (w, { ev with loading := false, error := some "Internal: worker.currentFen missing" })
  | some fenBeingEvaluated =>
    let fenParts := fenFields fenBeingEvaluated
    if fenParts.length < 2 then
      (w, { ev with loading := false, error := some "Internal: Invalid FEN" })
    else
      let turn := fenParts.getD 1 ""
      match m with
      | ScoreMsg.cp n =>
        if w.hasMateScore then
          (w, { ev with loading := false })
        else
          let score : ℤ := if turn = "b" then -n else n
          (w, { score := (score : ℚ) / 100, mate := none, loading := false })
      | ScoreMsg.mate n =>
        let w' := { w with hasMateScore := true }
        let mate : ℤ := if turn = "b" then -n else n
        (w', { score := if 0 < mate then 10 else -10, mate := some mate, loading := false })

/-- One state of the evaluation subsystem: the worker-attached fields plus
the React `evaluation` state. -/
structure SysState where
  worker : WorkerState
  evaluation : Evaluation
deriving DecidableEq, Repr

/-- The asynchronous events acting on the evaluation subsystem:
`msg` — an inbound score line handled by the listener;
`fenChange` — the body of the `useEffect` on `fen` (lines 311-317), which
runs `stockfish.hasMateScore = false` and schedules the debounced
`evaluatePosition`;
`debounceFire f` — the debounced `evaluatePosition` body firing ≈250ms later
(lines 300-308), which sets `loading`, sends stop/position/go, and updates
`stockfish.currentFen = f`. -/
inductive Event where
  | msg (m : ScoreMsg)
  | fenChange
  | debounceFire (f : String)
deriving DecidableEq, Repr

/-- The transition function of the evaluation subsystem over `Event`. -/
def step (s : SysState) : Event → SysState
  | Event.msg m =>
    let r := handleScoreMessage s.worker s.evaluation m
    { worker := r.1, evaluation := r.2 }
  | Event.fenChange =>
    { s with worker := { s.worker with hasMateScore := false } }
  | Event.debounceFire f =>
    { worker := { s.worker with currentFen := some f }
      evaluation := { s.evaluation with loading := true } }

/-- The chain condition of the timeline invariant: starting from `cur`, each
recorded position is the FEN the rules collaborator produces by applying the
corresponding recorded move's SAN to the previous position, and each recorded
move stores that FEN. -/
def chainOk (apply : String → String → Option MoveApplied) :
    String → List String → List ChessMove → Prop
  | _, [], [] => True
  | cur, p :: ps, m :: ms =>
      (apply cur m.san).map MoveApplied.fen = some p ∧ m.fen = p ∧ chainOk apply p ps ms
  | _, _, _ => False

/-- The spec's timeline invariant: one more position than moves, and every
`Positions[i+1]` is obtained by applying `Moves[i]` to `Positions[i]` via the
rules collaborator (FEN string equality). -/
def timelineInvariant (apply : String → String → Option MoveApplied)
    (positions : List String) (moves : List ChessMove) : Prop :=
  positions.length = moves.length + 1 ∧
  match positions with
  | [] => False
  | p0 :: rest => chainOk apply p0 rest moves

/-- A pre-import component state: a fresh board, as after `resetBoard()`. -/
def startState : AppState :=
  { history := [initialFen], moveHistory := [], currentPosition := 0,
    fen := initialFen, currentMoveExplanation := "", gameImported := false }

/-- A sample rules collaborator for concrete runs: it rejects the SAN
`"Qxd8"` and plays every other SAN, using the SAN itself as the resulting
FEN (distinct per move, which is all the lemmas need). -/
def sampleApply : String → String → Option MoveApplied :=
  fun _ san => if san = "Qxd8" then none else some { mvFrom := "", mvTo := "", fen := san }

/-- A sample descriptor list with exactly one illegal move (under
`sampleApply`) in the middle. -/
def sampleDescriptors : List PgnMove :=
  [{ move := some "e4" }, { move := some "Qxd8" }, { move := some "e5" }]

/-- A navigation fixture: an imported timeline with three positions
(`N = 2` moves) at index 0. -/
def navFixture : AppState :=
  { history := ["p0", "p1", "p2"], moveHistory := [], currentPosition := 0,
    fen := "p0", currentMoveExplanation := "", gameImported := true }

/-- The initial state of the mate-priority trace: the engine is tracking the
FEN `"8/8/8/8/8/8/8/8 w - - 0 1"`, no mate latch, a neutral evaluation. -/
def mateTraceStart : SysState :=
  { worker := { currentFen := some "8/8/8/8/8/8/8/8 w - - 0 1", hasMateScore := false }
    evaluation := { score := 0, mate := none, loading := false, error := none } }

/-- C2: the loss fed into classification is claimed to be
`max(0, bestScore − playedScore)` oriented to the mover and identical for the
two colors.  The code instead negates the difference for Black: with best
score 1 and played score −1 (both side-to-move relative, a 2-pawn loss), a
Black mover is classified `brilliant` while a White mover with the identical
scores is classified `mistake` — the code contradicts its own comment that a
positive difference means the move was better than the engine's choice. -/
theorem black_loss_classified_brilliant :
    classifyMove false 1 (-1) = MoveClassification.brilliant ∧
    classifyMove true 1 (-1) = MoveClassification.mistake := by
  constructor
  · norm_num [classifyMove, moveClassifications, abs, max_def]
  · norm_num [classifyMove, moveClassifications, abs, max_def]

/-- C4 (counterexample): at a centipawn loss of 0.05 for a White mover
(best-move score 0.05, played-move score 0), the code classifies the move as
`great`, not `best` as the claim states: the code's `best` bucket requires a
score difference of exactly zero. -/
theorem small_loss_not_best :
    classifyMove true (1/20) 0 = MoveClassification.great ∧
    MoveClassification.great ≠ MoveClassification.best := by
  refine ⟨?_, by decide⟩
  norm_num [classifyMove, moveClassifications, abs, max_def]

/-- C4 (amended): for a White mover whose played move scores strictly below
the best move by at most 0.2 pawns, `classifyMove` returns `great` (so a
0.05-pawn loss is `great`, not `best` and not `brilliant`). -/
theorem small_loss_classified_great (b p : ℚ) (h1 : 0 < b - p) (h2 : b - p ≤ 1/5) :
    classifyMove true b p = MoveClassification.great := by
  have habs : |p - b| = b - p := by
    rw [abs_of_nonpos (by linarith)]; ring
  simp only [classifyMove, moveClassifications]
  split_ifs <;> simp_all <;> linarith

/-- Witness for `small_loss_classified_great` at best score 1/20, played
score 0. -/
theorem small_loss_classified_great_witness :
    (0 : ℚ) < 1/20 - 0 ∧ (1/20 : ℚ) - 0 ≤ 1/5 ∧
    classifyMove true (1/20) 0 = MoveClassification.great :=
  ⟨by norm_num, by norm_num,
    small_loss_classified_great (1/20) 0 (by norm_num) (by norm_num)⟩

/-- C5 (counterexample): at a centipawn loss of 3.5 for a White mover
(best-move score 3.5, played-move score 0), the code classifies the move as
`blunder`, not `mistake` as the claim states: the code's mistake bucket ends
at 2.0 and its miss bucket at 3.0. -/
theorem sacrifice_loss_not_mistake :
    classifyMove true (7/2) 0 = MoveClassification.blunder ∧
    MoveClassification.blunder ≠ MoveClassification.mistake := by
  refine ⟨?_, by decide⟩
  norm_num [classifyMove, moveClassifications, abs, max_def]

/-- C5 (amended): for a White mover whose played move scores strictly more
than 3 pawns below the best move (in particular a 3.5-pawn loss), the code
classifies the move as `blunder` — it has no sacrifice rule, its mistake
bucket ends at 2.0 and its miss bucket at 3.0. -/
theorem large_loss_classified_blunder (b p : ℚ) (h : 3 < b - p) :
    classifyMove true b p = MoveClassification.blunder := by
  have habs : |p - b| = b - p := by
    rw [abs_of_nonpos (by linarith)]; ring
  simp only [classifyMove, moveClassifications]
  split_ifs <;> simp_all <;> linarith

/-- Witness for `large_loss_classified_blunder` at best score 7/2, played
score 0. -/
theorem large_loss_classified_blunder_witness :
    (3 : ℚ) < 7/2 - 0 ∧ classifyMove true (7/2) 0 = MoveClassification.blunder :=
  ⟨by norm_num, large_loss_classified_blunder (7/2) 0 (by norm_num)⟩

/-- The centipawn branch of the listener, when the tracked FEN is present and
well-formed and no mate verdict is latched, delivers the parsed value divided
by 100, negated exactly when the FEN's side-to-move field is `"b"`. -/
theorem handle_cp_delivers (w : WorkerState) (ev : Evaluation) (n : ℤ) (f : String)
    (hf : w.currentFen = some f) (hlen : 2 ≤ (fenFields f).length)
    (hm : w.hasMateScore = false) :
    (handleScoreMessage w ev (ScoreMsg.cp n)).2.score =
      (((if (fenFields f).getD 1 "" = "b" then -n else n) : ℤ) : ℚ) / 100 := by
  simp only [handleScoreMessage, hf, hm]
  rw [if_neg (show ¬ (fenFields f).length < 2 from by omega)]
  simp

/-- The mate branch of the listener, when the tracked FEN is present and
well-formed, delivers the parsed ply count, negated exactly when the FEN's
side-to-move field is `"b"`. -/
theorem handle_mate_delivers (w : WorkerState) (ev : Evaluation) (n : ℤ) (f : String)
    (hf : w.currentFen = some f) (hlen : 2 ≤ (fenFields f).length) :
    (handleScoreMessage w ev (ScoreMsg.mate n)).2.mate =
      some (if (fenFields f).getD 1 "" = "b" then -n else n) := by
  simp only [handleScoreMessage, hf]
  rw [if_neg (show ¬ (fenFields f).length < 2 from by omega)]

/-- C3: for a tracked FEN with the second player (black) to move, the
delivered Evaluation carries the negation of the engine's raw value — the
centipawn value negated and converted to pawns, the mate ply count negated —
while for a tracked FEN with white to move the raw value is delivered
unnegated. -/
theorem score_normalization (w : WorkerState) (ev : Evaluation) (f : String) (n : ℤ)
    (hf : w.currentFen = some f) (hlen : 2 ≤ (fenFields f).length)
    (hm : w.hasMateScore = false) :
    (((fenFields f).getD 1 "" = "b") →
      (handleScoreMessage w ev (ScoreMsg.cp n)).2.score = -(n : ℚ) / 100 ∧
      (handleScoreMessage w ev (ScoreMsg.mate n)).2.mate = some (-n)) ∧
    (((fenFields f).getD 1 "" = "w") →
      (handleScoreMessage w ev (ScoreMsg.cp n)).2.score = (n : ℚ) / 100 ∧
      (handleScoreMessage w ev (ScoreMsg.mate n)).2.mate = some n) := by
  constructor
  · intro hb
    rw [handle_cp_delivers w ev n f hf hlen hm, handle_mate_delivers w ev n f hf hlen]
    rw [hb]
    exact ⟨by push_cast; ring, rfl⟩
  · intro hw
    rw [handle_cp_delivers w ev n f hf hlen hm, handle_mate_delivers w ev n f hf hlen]
    rw [hw]
    exact ⟨rfl, rfl⟩

/-- Witness for `score_normalization` on the tracked FEN
`"8/8/8/8/8/8/8/8 b - - 0 1"` (black to move) and raw engine value 37. -/
theorem score_normalization_witness :
    (WorkerState.mk (some "8/8/8/8/8/8/8/8 b - - 0 1") false).currentFen =
      some "8/8/8/8/8/8/8/8 b - - 0 1" ∧
    2 ≤ (fenFields "8/8/8/8/8/8/8/8 b - - 0 1").length ∧
    (WorkerState.mk (some "8/8/8/8/8/8/8/8 b - - 0 1") false).hasMateScore = false ∧
    ((handleScoreMessage (WorkerState.mk (some "8/8/8/8/8/8/8/8 b - - 0 1") false)
        (Evaluation.mk 0 none false none) (ScoreMsg.cp 37)).2.score = -(37 : ℚ) / 100 ∧
      (handleScoreMessage (WorkerState.mk (some "8/8/8/8/8/8/8/8 b - - 0 1") false)
        (Evaluation.mk 0 none false none) (ScoreMsg.mate 3)).2.mate = some (-3)) :=
  ⟨rfl, by decide, rfl,
    (score_normalization (WorkerState.mk (some "8/8/8/8/8/8/8/8 b - - 0 1") false)
      (Evaluation.mk 0 none false none) "8/8/8/8/8/8/8/8 b - - 0 1" 37 rfl (by decide) rfl).1
      (by decide) |>.1,
    (score_normalization (WorkerState.mk (some "8/8/8/8/8/8/8/8 b - - 0 1") false)
      (Evaluation.mk 0 none false none) "8/8/8/8/8/8/8/8 b - - 0 1" 3 rfl (by decide) rfl).1
      (by decide) |>.2⟩

/-- While `hasMateScore` is latched, a centipawn message leaves the worker
state untouched and delivers no score update: every branch of the listener
reachable with the latch set preserves the previous `score` and `mate`. -/
theorem cp_suppressed (w : WorkerState) (ev : Evaluation) (n : ℤ)
    (h : w.hasMateScore = true) :
    (handleScoreMessage w ev (ScoreMsg.cp n)).1 = w ∧
    (handleScoreMessage w ev (ScoreMsg.cp n)).2.score = ev.score ∧
    (handleScoreMessage w ev (ScoreMsg.cp n)).2.mate = ev.mate := by
  cases hcf : w.currentFen with
  | none => simp [handleScoreMessage, hcf]
  | some f =>
    simp only [handleScoreMessage, hcf, h]
    split_ifs <;> simp

/-- C6 (amended): once a mate score is latched, any run of plain centipawn
messages leaves the delivered score and mate unchanged and the worker state
(tracked target and latch) intact; the latch is cleared by the fen-change
effect — which is what the code ties re-acceptance to, rather than to the
tracked-target switch itself. -/
theorem mate_suppresses_cp_until_fen_change (s : SysState) (ns : List ℤ)
    (h : s.worker.hasMateScore = true) :
    (List.foldl step s (ns.map fun n => Event.msg (ScoreMsg.cp n))).evaluation.score
        = s.evaluation.score ∧
    (List.foldl step s (ns.map fun n => Event.msg (ScoreMsg.cp n))).evaluation.mate
        = s.evaluation.mate ∧
    (List.foldl step s (ns.map fun n => Event.msg (ScoreMsg.cp n))).worker = s.worker ∧
    (step (List.foldl step s (ns.map fun n => Event.msg (ScoreMsg.cp n)))
        Event.fenChange).worker.hasMateScore = false := by
  induction ns generalizing s with
  | nil => exact ⟨rfl, rfl, rfl, by simp [step]⟩
  | cons n rest ih =>
    simp only [List.map_cons, List.foldl_cons]
    have hs := cp_suppressed s.worker s.evaluation n h
    have hw : (step s (Event.msg (ScoreMsg.cp n))).worker = s.worker := hs.1
    have ihs := ih (step s (Event.msg (ScoreMsg.cp n))) (by rw [hw]; exact h)
    refine ⟨?_, ?_, ?_, ihs.2.2.2⟩
    · rw [ihs.1]; exact hs.2.1
    · rw [ihs.2.1]; exact hs.2.2
    · rw [ihs.2.2.1, hw]

/-- Witness for `mate_suppresses_cp_until_fen_change`: with the latch set, a
single centipawn message (value 50) leaves the delivered mate verdict at
`some 3`. -/
theorem mate_suppresses_cp_until_fen_change_witness :
    (SysState.mk (WorkerState.mk (some "8/8/8/8/8/8/8/8 w - - 0 1") true)
        (Evaluation.mk 10 (some 3) false none)).worker.hasMateScore = true ∧
    (List.foldl step
        (SysState.mk (WorkerState.mk (some "8/8/8/8/8/8/8/8 w - - 0 1") true)
          (Evaluation.mk 10 (some 3) false none))
        ([(50 : ℤ)].map fun n => Event.msg (ScoreMsg.cp n))).evaluation.mate = some 3 :=
  ⟨rfl,
    (mate_suppresses_cp_until_fen_change
      (SysState.mk (WorkerState.mk (some "8/8/8/8/8/8/8/8 w - - 0 1") true)
        (Evaluation.mk 10 (some 3) false none)) [(50 : ℤ)] rfl).2.1⟩

/-- C6 (counterexample): after a mate message for the tracked target, a
centipawn message is indeed suppressed while nothing intervenes — but a
fen-change effect (navigation re-render) clears the latch *before* the
debounced target switch, so a subsequent centipawn message for the *same,
unchanged* tracked target is delivered (the mate verdict is replaced by
`mate = none`), refuting "ignored for as long as the target is unchanged". -/
theorem cp_accepted_while_target_unchanged :
    (step mateTraceStart (Event.msg (ScoreMsg.mate 3))).evaluation.mate = some 3 ∧
    (List.foldl step mateTraceStart
      [Event.msg (ScoreMsg.mate 3), Event.msg (ScoreMsg.cp 50)]).evaluation.mate = some 3 ∧
    (List.foldl step mateTraceStart
      [Event.msg (ScoreMsg.mate 3), Event.fenChange,
        Event.msg (ScoreMsg.cp 50)]).worker.currentFen = mateTraceStart.worker.currentFen ∧
    (List.foldl step mateTraceStart
      [Event.msg (ScoreMsg.mate 3), Event.fenChange,
        Event.msg (ScoreMsg.cp 50)]).evaluation.mate = none :=
  ⟨by decide, by decide, by decide, by decide⟩

/-- The replay loop records as many positions after the initial one as
moves, and the recorded positions chain through the rules collaborator from
the starting position. -/
theorem replay_chain (apply : String → String → Option MoveApplied)
    (explain : String → String → String → String → String → String)
    (cur : String) (ds : List PgnMove) :
    (replay apply explain cur ds).1.length = (replay apply explain cur ds).2.length ∧
    chainOk apply cur (replay apply explain cur ds).1 (replay apply explain cur ds).2 := by
  induction ds generalizing cur with
  | nil => simp [replay, chainOk]
  | cons d rest ih =>
    cases hd : d.move with
    | none => simpa [replay, hd] using ih cur
    | some san =>
      cases ha : apply cur san with
      | none => simpa [replay, hd, ha] using ih cur
      | some r =>
        have ihr := ih r.fen
        simp only [replay, hd, ha]
        refine ⟨by simp [ihr.1], ?_⟩
        simp only [chainOk]
        exact ⟨by simp [ha], trivial, ihr.2⟩

/-- Every descriptor is either recorded as a move or skipped: the recorded
move count plus the skip count equals the descriptor count. -/
theorem replay_length_add_skipped (apply : String → String → Option MoveApplied)
    (explain : String → String → String → String → String → String)
    (cur : String) (ds : List PgnMove) :
    (replay apply explain cur ds).2.length + skippedCount apply cur ds = ds.length := by
  induction ds generalizing cur with
  | nil => simp [replay, skippedCount]
  | cons d rest ih =>
    cases hd : d.move with
    | none =>
      simp only [replay, skippedCount, hd, List.length_cons]
      have := ih cur; omega
    | some san =>
      cases ha : apply cur san with
      | none =>
        simp only [replay, skippedCount, hd, ha, List.length_cons]
        have := ih cur; omega
      | some r =>
        simp only [replay, skippedCount, hd, ha, List.length_cons]
        have := ih r.fen; omega

/-- C1 (amended): every game imported through the PGN path satisfies the
timeline invariant — one more position than moves, with each `Positions[i+1]`
the FEN obtained by applying `Moves[i]` to `Positions[i]` via the rules
collaborator.  (The FEN-import path violates the invariant, see the
counterexample.) -/
theorem pgn_import_timeline_invariant (apply : String → String → Option MoveApplied)
    (explain : String → String → String → String → String → String)
    (parse : String → Option (List PgnMove)) (pgn : String)
    (st : AppState) (ds : List PgnMove) (h : parse pgn = some ds) :
    timelineInvariant apply (handlePgnImport apply explain parse pgn st).history
      (handlePgnImport apply explain parse pgn st).moveHistory := by
  simp only [handlePgnImport, h, timelineInvariant]
  have hc := replay_chain apply explain initialFen ds
  exact ⟨by simp [hc.1], hc.2⟩

/-- Witness for `pgn_import_timeline_invariant` on a one-descriptor game. -/
theorem pgn_import_timeline_invariant_witness :
    (fun _ : String => some [({ move := some "e4" } : PgnMove)]) "1. e4" =
      some [({ move := some "e4" } : PgnMove)] ∧
    timelineInvariant sampleApply
      (handlePgnImport sampleApply (fun _ _ _ _ _ => "")
        (fun _ => some [({ move := some "e4" } : PgnMove)]) "1. e4" startState).history
      (handlePgnImport sampleApply (fun _ _ _ _ _ => "")
        (fun _ => some [({ move := some "e4" } : PgnMove)]) "1. e4" startState).moveHistory :=
  ⟨rfl, pgn_import_timeline_invariant sampleApply (fun _ _ _ _ _ => "")
    (fun _ => some [({ move := some "e4" } : PgnMove)]) "1. e4" startState
    [({ move := some "e4" } : PgnMove)] rfl⟩

/-- C1 (counterexample): the FEN-import path produces a timeline with one
position and one synthetic move, so `len(Positions) = len(Moves) + 1` fails
for this imported game. -/
theorem fen_import_breaks_timeline_invariant :
    (handleFenImport (fun s => some s) "4k3/8/8/8/8/8/8/4K3 w - - 0 1"
      startState).history.length = 1 ∧
    (handleFenImport (fun s => some s) "4k3/8/8/8/8/8/8/4K3 w - - 0 1"
      startState).moveHistory.length = 1 ∧
    (handleFenImport (fun s => some s) "4k3/8/8/8/8/8/8/4K3 w - - 0 1"
        startState).history.length ≠
      (handleFenImport (fun s => some s) "4k3/8/8/8/8/8/8/4K3 w - - 0 1"
        startState).moveHistory.length + 1 :=
  ⟨by decide, by decide, by decide⟩

/-- C8: when the PGN parser fails on the whole input, `handlePgnImport`
reaches its catch block without running any state setter, so the entire
prior timeline state — position list, move list, current index, displayed
position — is returned unchanged. -/
theorem pgn_import_atomic_on_parse_failure (apply : String → String → Option MoveApplied)
    (explain : String → String → String → String → String → String)
    (parse : String → Option (List PgnMove)) (pgn : String) (st : AppState)
    (h : parse pgn = none) :
    handlePgnImport apply explain parse pgn st = st := by
  simp [handlePgnImport, h]

/-- Witness for `pgn_import_atomic_on_parse_failure` with a parser that
rejects everything. -/
theorem pgn_import_atomic_witness :
    (fun _ : String => (none : Option (List PgnMove))) "bad pgn" = none ∧
    handlePgnImport (fun _ _ => none) (fun _ _ _ _ _ => "") (fun _ => none) "bad pgn" startState =
      startState :=
  ⟨rfl, pgn_import_atomic_on_parse_failure (fun _ _ => none) (fun _ _ _ _ _ => "")
    (fun _ => none) "bad pgn" startState rfl⟩

/-- C7: a descriptor list whose entries all carry moves, exactly one of
which is rejected during replay, imports to a move list one shorter than the
descriptor list, and the import completes through the success path (no
import-level error; `gameImported` is set). -/
theorem pgn_import_skips_single_illegal (apply : String → String → Option MoveApplied)
    (explain : String → String → String → String → String → String)
    (parse : String → Option (List PgnMove)) (pgn : String) (st : AppState)
    (ds : List PgnMove) (hp : parse pgn = some ds)
    (hall : ∀ d ∈ ds, d.move.isSome = true)
    (hskip : skippedCount apply initialFen ds = 1) :
    (handlePgnImport apply explain parse pgn st).moveHistory.length + 1 = ds.length ∧
    (handlePgnImport apply explain parse pgn st).gameImported = true := by
  simp only [handlePgnImport, hp]
  refine ⟨?_, trivial⟩
  have := replay_length_add_skipped apply explain initialFen ds
  omega

/-- Witness for `pgn_import_skips_single_illegal` on `sampleDescriptors`,
whose middle move is the one `sampleApply` rejects. -/
theorem pgn_import_skips_single_illegal_witness :
    (fun _ : String => some sampleDescriptors) "1. e4 Qxd8 2. e5" = some sampleDescriptors ∧
    (∀ d ∈ sampleDescriptors, d.move.isSome = true) ∧
    skippedCount sampleApply initialFen sampleDescriptors = 1 ∧
    (handlePgnImport sampleApply (fun _ _ _ _ _ => "") (fun _ => some sampleDescriptors)
        "1. e4 Qxd8 2. e5" startState).moveHistory.length + 1 = sampleDescriptors.length :=
  ⟨rfl, by decide, by decide,
    (pgn_import_skips_single_illegal sampleApply (fun _ _ _ _ _ => "")
      (fun _ => some sampleDescriptors) "1. e4 Qxd8 2. e5" startState sampleDescriptors rfl
      (by decide) (by decide)).1⟩

/-- C10: importing a single FEN through `handleFenImport` yields a history
with exactly that one position and a move list with exactly one synthetic
entry whose squares are empty strings and whose SAN is
`"Imported Position"`. -/
theorem fen_import_single_position (load : String → Option String) (fenInput f : String)
    (st : AppState) (h : load fenInput = some f) :
    (handleFenImport load fenInput st).history = [f] ∧
    (handleFenImport load fenInput st).moveHistory =
      [{ mvFrom := "", mvTo := "", san := "Imported Position", fen := f,
         explanation := some "This is an imported position from a FEN string." }] := by
  simp [handleFenImport, h]

/-- Witness for `fen_import_single_position` on a concrete FEN. -/
theorem fen_import_single_position_witness :
    (fun s : String => some s) "4k3/8/8/8/8/8/8/4K3 w - - 0 1" =
      some "4k3/8/8/8/8/8/8/4K3 w - - 0 1" ∧
    (handleFenImport (fun s => some s) "4k3/8/8/8/8/8/8/4K3 w - - 0 1" startState).history =
      ["4k3/8/8/8/8/8/8/4K3 w - - 0 1"] :=
  ⟨rfl, (fen_import_single_position (fun s => some s) "4k3/8/8/8/8/8/8/4K3 w - - 0 1"
    "4k3/8/8/8/8/8/8/4K3 w - - 0 1" startState rfl).1⟩

/-- `navigateHistory` only changes the index inside the guard
`0 ≤ index < history.length`; outside it the state (hence the index) is
untouched. -/
theorem navigateHistory_currentPosition (st : AppState) (index : ℤ) :
    (navigateHistory st index).currentPosition =
      if 0 ≤ index ∧ index < (st.history.length : ℤ) then index else st.currentPosition := by
  unfold navigateHistory
  split_ifs <;> rfl

/-- C9 (amended): with `N + 1` stored positions and the current index in
`[0, N]`, `nextMove` yields `min(index + 1, N)` and `prevMove` yields
`max(index − 1, 0)` — but `goToMove i` goes to position `i + 1` when
`0 ≤ i + 1 ≤ N` and otherwise leaves the index unchanged: out-of-range
requests are ignored, not clamped. -/
theorem navigation_index_transitions (st : AppState) (N : ℕ) (i : ℤ)
    (hlen : st.history.length = N + 1)
    (h0 : 0 ≤ st.currentPosition) (hN : st.currentPosition ≤ (N : ℤ)) :
    (nextMove st).currentPosition = min (st.currentPosition + 1) (N : ℤ) ∧
    (prevMove st).currentPosition = max (st.currentPosition - 1) 0 ∧
    (goToMove st i).currentPosition =
      (if 0 ≤ i + 1 ∧ i + 1 ≤ (N : ℤ) then i + 1 else st.currentPosition) := by
  simp only [nextMove, prevMove, goToMove, navigateHistory_currentPosition, hlen]
  push_cast
  refine ⟨?_, ?_, ?_⟩ <;> split_ifs <;> omega

/-- Witness for `navigation_index_transitions` on the three-position
fixture. -/
theorem navigation_index_transitions_witness :
    navFixture.history.length = 2 + 1 ∧ (0 : ℤ) ≤ navFixture.currentPosition ∧
    navFixture.currentPosition ≤ (2 : ℕ) ∧
    (nextMove navFixture).currentPosition = min (navFixture.currentPosition + 1) ((2 : ℕ) : ℤ) :=
  ⟨by decide, by decide, by decide,
    (navigation_index_transitions navFixture 2 5 rfl (by decide) (by decide)).1⟩

/-- C9 (counterexample): on a timeline with three positions (`N = 2`) at
index 0, `goToMove 5` leaves the index at 0 instead of clamping the request
into `[0, N]` (which would give 2): the guard makes out-of-range requests
no-ops. -/
theorem goto_out_of_range_not_clamped :
    (goToMove navFixture 5).currentPosition = 0 ∧
    (goToMove navFixture 5).currentPosition ≠ 2 :=
  ⟨by decide, by decide⟩

end Endgame
